import Mathlib

/-!
Verification of the `recoil-persist` effect (src/index.ts) against its
specification.

The development shallowly embeds the single source file:

* JavaScript runtime values that can flow through the effect are modelled by
  `JsVal` (JSON-representable data plus `undefined` and recoil's
  `DefaultValue` reset sentinel).
* The external `JSON.parse` / `JSON.stringify` collaborators are modelled by
  an executable printer/parser pair on `JsVal`.  JSON numbers are kept as
  their literal text (`JsVal.num lit`): the program never computes with the
  numeric value, it only stores and reloads it, so the literal is the
  faithful observable.  `JSON.stringify` returns `none` exactly when the
  JavaScript call would return `undefined` (top-level `undefined` input); a
  `DefaultValue` class instance has no own enumerable properties, hence
  serializes as an empty object.
* Storage backends are modelled by the shape of their `getItem` result
  (`GetItemResult`): `null`/`undefined`, an immediate string, a pending
  promise (which may reject), or any other shape — exactly the four cases
  `getState` (source lines 80-93) distinguishes.  A promise is modelled as
  the eventual outcome `Except String _`; `p.then f` maps `f` over a
  successful outcome and passes a rejection through unchanged, which is the
  JavaScript semantics of `then` without a rejection handler.
* The effect itself is split exactly as the source is: `getState`,
  `parseState`, the initialization path of `persistAtom` (lines 49-61,
  `persistAtomInit`), the `onSet` subscription body (lines 63-77,
  `persistAtomOnSet` / `updateState`), and the writer `setState`
  (lines 107-115, `setStateOutcome`: a `try/catch` around
  `storage.setItem` catches a synchronous throw but not a rejection of a
  returned promise).
* Construction (lines 34-46) is modelled by `construct`: the
  `typeof window === 'undefined'` check precedes everything, then the
  storage default and `getKey` run once in the body of the settings-level
  factory.  A function-valued key is state-passing (`σ → String × σ`) so
  that the number of invocations is observable.
-/

/-- A JavaScript value as it can flow through the effect: the
JSON-representable values, plus `undefined` and an instance of recoil's
`DefaultValue` class (the reset-to-default sentinel).  Object fields keep
their insertion order, as JavaScript string-keyed objects do.  A JSON
number is represented by its literal text. -/
inductive JsVal where
  | null
  | undefined
  | bool (b : Bool)
  | num (lit : String)
  | str (s : String)
  | obj (fields : List (String × JsVal))
  | defaultValue

/-- The JavaScript test `v === null`. -/
def isNullJs : JsVal → Bool
  | .null => true
  | _ => false

/-- The JavaScript test `v === undefined`. -/
def isUndefinedJs : JsVal → Bool
  | .undefined => true
  | _ => false

/-- The JavaScript test `v instanceof DefaultValue`. -/
def isDefaultValueInstance : JsVal → Bool
  | .defaultValue => true
  | _ => false

/-- `state.hasOwnProperty(k)`: true only on objects that carry the key.
(A promise object, a primitive, or a `DefaultValue` instance has no such
own property.)  This is the membership test of the non-throwing
executions; `hasOwnPropertyEval` below models the full JavaScript
evaluation of the call, including the TypeError cases (a nullish
receiver, a shadowed method). -/
def JsVal.hasOwnProperty : JsVal → String → Bool
  | .obj fs, k => fs.any (fun p => p.1 == k)
  | _, _ => false

/-- Property read `state[k]`: the stored value, or `undefined` when the key
is absent or the receiver is not an object. -/
def JsVal.getField : JsVal → String → JsVal
  | .obj fs, k =>
    match fs.find? (fun p => p.1 == k) with
    | some p => p.2
    | none => .undefined
  | _, _ => .undefined

/-- Assignment of a field in an ordered field list: an existing key keeps
its position and gets the new value, a fresh key is appended — JavaScript
property-assignment order semantics. -/
def setField : List (String × JsVal) → String → JsVal → List (String × JsVal)
  | [], k, v => [(k, v)]
  | (k0, v0) :: rest, k, v =>
    if k0 = k then (k0, v) :: rest else (k0, v0) :: setField rest k v

/-- Property assignment `state[k] = v`.  On a non-object receiver the
value is returned unchanged; the source would instead throw a TypeError
there (always on `null`, on primitives in strict mode).  The theorems
below only exercise assignment on object receivers, where the JavaScript
semantics is exactly the `setField` update. -/
def JsVal.setProp : JsVal → String → JsVal → JsVal
  | .obj fs, k, v => .obj (setField fs k v)
  | st, _, _ => st

/-- `delete state[k]`: removes the key from an object, no-op otherwise. -/
def JsVal.deleteProp : JsVal → String → JsVal
  | .obj fs, k => .obj (fs.filter (fun p => !(p.1 == k)))
  | st, _ => st

/-- Characters that can occur in a JSON number literal. -/
def numberChar (c : Char) : Bool :=
  c.isDigit || c = '-' || c = '+' || c = '.' || c = 'e' || c = 'E'

/-- A well-formed JSON number literal: nonempty, made of number characters,
and starting the way `JSON.parse` recognises a number. -/
def numLitOk (s : String) : Bool :=
  (match s.data with
   | [] => false
   | c :: _ => c.isDigit || c = '-')
  && s.data.all numberChar

mutual
/-- Values in the JSON-representable fragment: no `undefined`, no
`DefaultValue` instance, and number literals well formed.  Storing such a
value and reloading it through `JSON.stringify`/`JSON.parse` is lossless. -/
def jsonSafe : JsVal → Bool
  | .null => true
  | .undefined => false
  | .bool _ => true
  | .num lit => numLitOk lit
  | .str _ => true
  | .obj fs => jsonSafeFields fs
  | .defaultValue => false

/-- Field lists whose values are all `jsonSafe`. -/
def jsonSafeFields : List (String × JsVal) → Bool
  | [] => true
  | (_, v) :: rest => jsonSafe v && jsonSafeFields rest
end

/-- String-body escaping performed by `JSON.stringify`: quote and backslash
characters are preceded by a backslash. -/
def escapeChars : List Char → List Char
  | [] => []
  | c :: rest =>
    if c = '\x22' || c = '\x5c' then '\x5c' :: c :: escapeChars rest
    else c :: escapeChars rest

/-- A JSON string literal: quote, escaped body, quote. -/
def printQuoted (s : String) : List Char :=
  '\x22' :: escapeChars s.data ++ ['\x22']

/-- Comma-separated concatenation of rendered object members. -/
def joinComma : List (List Char) → List Char
  | [] => []
  | [x] => x
  | x :: y :: t => x ++ ',' :: joinComma (y :: t)

mutual
/-- The output of `JSON.stringify` on a `JsVal`, as characters.  `none`
models the JavaScript call returning `undefined` (top-level `undefined`
argument).  A `DefaultValue` instance has no own enumerable properties and
prints as an empty object; an object member whose value is `undefined` is
dropped. -/
def printVal : JsVal → Option (List Char)
  | .undefined => none
  | .null => some ('n' :: 'u' :: 'l' :: 'l' :: [])
  | .bool true => some ('t' :: 'r' :: 'u' :: 'e' :: [])
  | .bool false => some ('f' :: 'a' :: 'l' :: 's' :: 'e' :: [])
  | .num lit => some lit.data
  | .str s => some (printQuoted s)
  | .defaultValue => some ('\x7b' :: '\x7d' :: [])
  | .obj fs => some ('\x7b' :: joinComma (printFieldPieces fs) ++ ['\x7d'])

/-- The rendered members of an object, in order, members with `undefined`
values dropped. -/
def printFieldPieces : List (String × JsVal) → List (List Char)
  | [] => []
  | (k, v) :: rest =>
    match printVal v with
    | none => printFieldPieces rest
    | some pv => (printQuoted k ++ ':' :: pv) :: printFieldPieces rest
end

/-- `JSON.stringify` on a `JsVal`. -/
def JSONstringify (v : JsVal) : Option String :=
  (printVal v).map String.mk

/-- Parses a JSON string body after the opening quote: accumulates
characters until the closing quote, a backslash taking the next character
literally. -/
def parseStrBody : List Char → Option (List Char × List Char)
  | [] => none
  | c :: rest =>
    if c = '\x22' then some ([], rest)
    else if c = '\x5c' then
      match rest with
      | [] => none
      | c2 :: rest2 => (parseStrBody rest2).map (fun p => (c2 :: p.1, p.2))
    else (parseStrBody rest).map (fun p => (c :: p.1, p.2))

/-- Expects `w` as a literal text at the head of the input and returns the
remainder. -/
def stripPre : List Char → List Char → Option (List Char)
  | [], cs => some cs
  | _ :: _, [] => none
  | w :: ws, c :: cs => if c = w then stripPre ws cs else none

mutual
/-- A recursive-descent parser for the JSON fragment `JSON.stringify`
emits (no insignificant whitespace), fuelled to make the nesting recursion
structural.  Returns the parsed value and the unconsumed remainder, `none`
on malformed input — modelling `JSON.parse` throwing a `SyntaxError`. -/
def parseVal : Nat → List Char → Option (JsVal × List Char)
  | 0, _ => none
  | _ + 1, [] => none
  | fuel + 1, c :: rest =>
    if c = 'n' then (stripPre ('u' :: 'l' :: 'l' :: []) rest).map (fun r => (.null, r))
    else if c = 't' then (stripPre ('r' :: 'u' :: 'e' :: []) rest).map (fun r => (.bool true, r))
    else if c = 'f' then (stripPre ('a' :: 'l' :: 's' :: 'e' :: []) rest).map (fun r => (.bool false, r))
    else if c = '\x22' then (parseStrBody rest).map (fun p => (.str (String.mk p.1), p.2))
    else if c = '\x7b' then
      match rest with
      | [] => none
      | c2 :: rest2 =>
        if c2 = '\x7d' then some (.obj [], rest2)
        else (parseFields fuel (c2 :: rest2)).map (fun p => (.obj p.1, p.2))
    else if c.isDigit || c = '-' then
      some (.num (String.mk ((c :: rest).takeWhile numberChar)), (c :: rest).dropWhile numberChar)
    else none

/-- Parses a nonempty member list of a JSON object, up to and including the
closing brace. -/
def parseFields : Nat → List Char → Option (List (String × JsVal) × List Char)
  | 0, _ => none
  | _ + 1, [] => none
  | fuel + 1, c :: rest =>
    if c = '\x22' then
      match parseStrBody rest with
      | none => none
      | some (kcs, r1) =>
        match r1 with
        | [] => none
        | c1 :: r2 =>
          if c1 = ':' then
            match parseVal fuel r2 with
            | none => none
            | some (v, r3) =>
              match r3 with
              | [] => none
              | c3 :: r4 =>
                if c3 = ',' then
                  (parseFields fuel r4).map (fun p => ((String.mk kcs, v) :: p.1, p.2))
                else if c3 = '\x7d' then some ([(String.mk kcs, v)], r4)
                else none
          else none
    else none
end

/-- `JSON.parse`: `none` models a thrown `SyntaxError`.  The whole input
must be consumed.  The fuel `length + 1` always suffices because every
recursive descent consumes at least one character first. -/
def JSONparse (s : String) : Option JsVal :=
  match parseVal (s.length + 1) s.data with
  | some (v, []) => some v
  | _ => none

/-- `parseState` (source lines 95-105): `undefined` input (`none` here)
yields an empty object, otherwise `JSON.parse` with a thrown parse error
caught, logged and replaced by an empty object. -/
def parseState : Option String → JsVal
  | none => .obj []
  | some s =>
    match JSONparse s with
    | some v => v
    | none => .obj []

/-- The shape of a `storage.getItem(key)` result, the four cases
distinguished by `getState`: `null`/`undefined`, an immediate string, a
thenable whose eventual outcome is a resolution (possibly to `undefined`)
or a rejection, or any other shape. -/
inductive GetItemResult where
  | nullOrUndefined
  | immediate (s : String)
  | pending (outcome : Except String (Option String))
  | other

/-- What `getState` returns: either a plain value or a promise of one
(whose eventual outcome may be a rejection, since `then` without a
rejection handler passes rejections through). -/
inductive GetStateResult where
  | sync (v : JsVal)
  | async (outcome : Except String JsVal)

/-- `getState` (source lines 80-93): `null`/`undefined` and non-string
non-thenable results give an empty object; a string is parsed; a thenable
is mapped through `parseState` by `.then(parseState)`, rejections passing
through unhandled. -/
def getState : GetItemResult → GetStateResult
  | .nullOrUndefined => .sync (.obj [])
  | .immediate s => .sync (parseState (some s))
  | .pending (.ok r) => .async (.ok (parseState r))
  | .pending (.error e) => .async (.error e)
  | .other => .sync (.obj [])

/-- `await`ing the `getState` result inside the async `onSet` handler: a
plain value is normalised, a promise yields its outcome; a rejection makes
the handler itself reject. -/
def awaitState : GetStateResult → Except String JsVal
  | .sync v => .ok v
  | .async o => o

/-- Applies the optional per-cell deserializer, the identity when none is
configured. -/
def applyDeser (d : Option (JsVal → JsVal)) (v : JsVal) : JsVal :=
  match d with
  | some f => f v
  | none => v

/-- Applies the optional per-cell serializer (which per the source type
returns a string), or stores the raw value when none is configured. -/
def applySer (ser : Option (JsVal → String)) (v : JsVal) : JsVal :=
  match ser with
  | some f => .str (f v)
  | none => v

/-- The observable outcome of the initialization path (source lines
49-61): the value passed to a synchronous `setSelf` call, if any, and —
when the state was a promise — the eventual outcome of the registered
continuation, a rejection meaning the continuation chain rejects with no
handler attached. -/
structure InitResult where
  immediateSet : Option JsVal
  deferredSet : Option (Except String (Option JsVal))

/-- The initialization path of `persistAtom` (source lines 49-61), for
the non-throwing executions.  With trigger `"get"` the state is read;
`state.then` is a function exactly when the state is a promise, and
`state.hasOwnProperty` on a promise object is false, so the synchronous
branch fires only for plain states and the continuation only for
promises.  The member accesses of lines 51 and 58 can also throw a
TypeError (e.g. on a `null` state); `persistAtomAttach` below models the
whole attach including those synchronous throw outcomes. -/
def persistAtomInit (d : Option (JsVal → JsVal)) (trigger : String) (nodeKey : String)
    (st : GetStateResult) : InitResult :=
  if trigger = "get" then
    { immediateSet :=
        match st with
        | .sync v =>
          if v.hasOwnProperty nodeKey then some (applyDeser d (v.getField nodeKey)) else none
        | .async _ => none
    , deferredSet :=
        match st with
        | .sync _ => none
        | .async (.ok s) =>
          some (.ok (if s.hasOwnProperty nodeKey
                     then some (applyDeser d (s.getField nodeKey)) else none))
        | .async (.error e) => some (.error e) }
  else { immediateSet := none, deferredSet := none }

/-- The `setSelf` values that are eventually delivered by an
initialization, combining the synchronous call and a successfully resolved
continuation. -/
def InitResult.deliveredSets : InitResult → List JsVal
  | ⟨imm, defer⟩ =>
    imm.toList ++
      (match defer with
       | some (.ok (some v)) => [v]
       | _ => [])

/-- The state mutation inside the `onSet` handler (source lines 65-74):
the entry is deleted only when the new value is the `DefaultValue`
sentinel (which is neither `null` nor `undefined`) and the key is present;
in every other case — including the sentinel with the key absent — the
(optionally serialized) new value is assigned to the key. -/
def updateState (nodeKey : String) (newValue : JsVal) (ser : Option (JsVal → String))
    (state : JsVal) : JsVal :=
  if !(isNullJs newValue) && !(isUndefinedJs newValue)
      && isDefaultValueInstance newValue && state.hasOwnProperty nodeKey
  then state.deleteProp nodeKey
  else state.setProp nodeKey (applySer ser newValue)

/-- The async `onSet` subscription body (source lines 63-77): await the
read state (a rejection rejects the handler itself, unhandled), mutate it,
and hand the mutated state together with its `JSON.stringify` image to the
writer. -/
def persistAtomOnSet (ser : Option (JsVal → String)) (nodeKey : String) (newValue : JsVal)
    (st : GetStateResult) : Except String (JsVal × Option String) :=
  (awaitState st).map (fun s =>
    let s2 := updateState nodeKey newValue ser s
    (s2, JSONstringify s2))

/-- How the backend's `setItem` behaves on a given call: returns normally
(or a resolving promise), throws synchronously, or returns a promise that
rejects. -/
inductive SetItemBehavior where
  | done
  | threw (e : String)
  | pendingRejected (e : String)
deriving DecidableEq

/-- The outcome of the writer `setState` (source lines 107-115): the
`try/catch` swallows a synchronous throw, but a rejected promise returned
by `setItem` is not a synchronous throw and escapes it as an unhandled
rejection. -/
inductive WriteOutcome where
  | written
  | caught (e : String)
  | unhandledRejection (e : String)
deriving DecidableEq

/-- `setState`'s reaction to the backend's behaviour. -/
def setStateOutcome : SetItemBehavior → WriteOutcome
  | .done => .written
  | .threw e => .caught e
  | .pendingRejected e => .unhandledRejection e

/-- The `key` field of the configuration: omitted, a string, or a
zero-argument function — modelled state-passing so the number of
invocations is observable. -/
inductive KeyConfig (σ : Type) where
  | missing
  | fixed (s : String)
  | fnKey (f : σ → String × σ)

/-- The construction-time configuration (source lines 9-12). -/
structure PersistConfiguration (σ β : Type) where
  key : KeyConfig σ
  storage : Option β

/-- The ambient execution context: whether `window` (and with it the
platform `localStorage`) exists. -/
structure JsEnv where
  windowPresent : Bool

/-- Which backend the constructed instance targets: the injected one or
the platform default. -/
inductive BackendChoice (β : Type) where
  | supplied (b : β)
  | defaultLocalStorage
deriving DecidableEq

/-- `const { storage = localStorage } = config` (source line 44). -/
def chooseBackend : Option β → BackendChoice β
  | some b => .supplied b
  | none => .defaultLocalStorage

/-- A constructed instance: the degraded no-op (`persistAtom: () => {}`,
source lines 37-41) or an active effect closed over a backend and a
resolved key. -/
inductive Constructed (β : Type) where
  | degraded
  | active (backend : BackendChoice β) (key : Option String)

/-- `getKey` (source lines 19-25): a function-valued key is invoked (once,
here as one state transition), a string key is returned as is, and an
omitted key is returned as the `undefined` value (`none`) — no default is
substituted. -/
def getKey : KeyConfig σ → σ → Option String × σ
  | .fnKey f, s => (some (f s).1, (f s).2)
  | .fixed k, s => (some k, s)
  | .missing, s => (none, s)

/-- Construction of one instance, `recoilPersist(config)(settings)`
(source lines 34-46): the `typeof window === 'undefined'` check comes
first and yields the degraded no-op regardless of the rest of the
configuration; otherwise the backend defaults and `getKey` runs exactly
once in the factory body, and the returned `persistAtom` closes over the
results. -/
def construct (env : JsEnv) (cfg : PersistConfiguration σ β) (s : σ) : Constructed β × σ :=
  if env.windowPresent = false then (.degraded, s)
  else
    let backend := chooseBackend cfg.storage
    let p := getKey cfg.key s
    (.active backend p.1, p.2)

/-- A storage access performed by the effect, carrying the targeted
backend and the key argument passed (which is the `undefined` value,
`none`, when the key was never resolved to a string). -/
inductive StorageEvent (β : Type) where
  | getItemCall (backend : BackendChoice β) (key : Option String)
  | setItemCall (backend : BackendChoice β) (key : Option String) (blob : Option String)

/-- The key argument of a storage access. -/
def eventKey : StorageEvent β → Option String
  | .getItemCall _ k => k
  | .setItemCall _ k _ => k

/-- The backend a storage access targets. -/
def eventBackend : StorageEvent β → BackendChoice β
  | .getItemCall b _ => b
  | .setItemCall b _ _ => b

/-- The storage accesses performed when the effect is attached to a cell:
the degraded instance performs none; an active instance reads once iff the
trigger is `"get"`. -/
def attachEvents : Constructed β → String → List (StorageEvent β)
  | .degraded, _ => []
  | .active b k, trigger => if trigger = "get" then [.getItemCall b k] else []

/-- The initialization outcome of attaching: the degraded instance never
calls `setSelf`. -/
def attachInit : Constructed β → Option (JsVal → JsVal) → String → String → GetStateResult →
    InitResult
  | .degraded, _, _, _, _ => ⟨none, none⟩
  | .active _ _, d, trigger, nodeKey, st => persistAtomInit d trigger nodeKey st

/-- Whether attaching registers an `onSet` subscription: the degraded
instance's `persistAtom` body is empty and registers nothing. -/
def registersOnSet : Constructed β → Bool
  | .degraded => false
  | .active _ _ => true

/-- The storage accesses of one firing of the `onSet` handler: a read,
then — unless the awaited read rejected — a write of the serialized
snapshot. -/
def onSetEvents (inst : Constructed β) (ser : Option (JsVal → String)) (nodeKey : String)
    (newValue : JsVal) (st : GetStateResult) : List (StorageEvent β) :=
  match inst with
  | .degraded => []
  | .active b k =>
    .getItemCall b k ::
      (match persistAtomOnSet ser nodeKey newValue st with
       | .ok p => [.setItemCall b k p.2]
       | .error _ => [])

/-- Whether a value is a mapping (a JavaScript object). -/
def JsVal.isMapping : JsVal → Bool
  | .obj _ => true
  | _ => false

mutual
/-- Size measure for the round-trip induction. -/
def jsize : JsVal → Nat
  | .obj fs => 1 + fsize fs
  | _ => 1

def fsize : List (String × JsVal) → Nat
  | [] => 0
  | (_, v) :: rest => 1 + jsize v + fsize rest
end

/-- True when the input does not start with a number character, so a
number literal just before it ends exactly there. -/
def headNotNum : List Char → Bool
  | [] => true
  | c :: _ => !numberChar c

/-- The JavaScript evaluation of `state.hasOwnProperty(k)` (source lines
53, 58 and 69): member access on a nullish receiver throws a TypeError,
an own property named `hasOwnProperty` shadows the prototype method with
a non-function value (JSON data is never a function) so the call throws,
and otherwise the call answers whether the receiver is an object carrying
the key.  (On string receivers JavaScript would also answer true for
index and `length` keys; cell identifiers are none of those, and the
sync/async comparison below is unaffected because both modes evaluate the
same receiver.) -/
def hasOwnPropertyEval : JsVal → String → Except String Bool
  | .null, _ => .error "TypeError"
  | .undefined, _ => .error "TypeError"
  | .obj fs, k =>
    if fs.any (fun p => p.1 == "hasOwnProperty") then .error "TypeError"
    else .ok (fs.any (fun p => p.1 == k))
  | _, _ => .ok false

/-- The JavaScript evaluation of `typeof state.then === 'function'`
(source line 51) on a plain (non-promise) state: member access on a
nullish receiver throws a TypeError; on every other parsed value `then`
is either absent or JSON data, never a function. -/
def thenIsFunctionEval : JsVal → Except String Bool
  | .null => .error "TypeError"
  | .undefined => .error "TypeError"
  | _ => .ok false

/-- Whether the member accesses of the initialization path throw a
TypeError on this plain state: a nullish state (line 51 throws) or a
mapping whose own `hasOwnProperty` member shadows the method (line 58
throws). -/
def attachChecksThrow : JsVal → Bool
  | .null => true
  | .undefined => true
  | .obj fs => fs.any (fun p => p.1 == "hasOwnProperty")
  | _ => false

/-- The observable outcome of one whole attach of the active effect
(source lines 48-77): the value passed to a synchronous `setSelf`, the
eventual outcome of a registered continuation, and whether the attach
reached the `onSet` registration of line 63. -/
structure AttachResult where
  immediateSet : Option JsVal
  deferredSet : Option (Except String (Option JsVal))
  onSetRegistered : Bool

/-- The `setSelf` values eventually delivered by one attach. -/
def AttachResult.deliveredSets : AttachResult → List JsVal
  | ⟨imm, defer, _⟩ =>
    imm.toList ++
      (match defer with
       | some (.ok (some v)) => [v]
       | _ => [])

/-- One whole attach of the active effect (source lines 48-77) with the
JavaScript error semantics of its member accesses.  With trigger `"get"`
and a plain state, line 51 evaluates `typeof state.then` — throwing on a
`null` state, which aborts `persistAtom` before `onSet` is registered at
line 63 — and line 58 evaluates `state.hasOwnProperty(node.key)`, which
can likewise throw; a throw anywhere in lines 49-61 is a synchronous
exception escaping the attach (`.error`).  With a promise state, `then`
is a function and the continuation is registered, `state.hasOwnProperty`
on the promise object is false and throws nothing, and `onSet` is
registered; the continuation later re-evaluates `hasOwnProperty` on the
resolved state, a throw there rejecting the continuation chain after the
subscription already exists.  With any other trigger lines 49-61 are
skipped and `onSet` is registered directly. -/
def persistAtomAttach (d : Option (JsVal → JsVal)) (trigger : String) (nodeKey : String)
    (st : GetStateResult) : Except String AttachResult :=
  if trigger = "get" then
    match st with
    | .sync v =>
      match thenIsFunctionEval v with
      | .error e => .error e
      | .ok _ =>
        match hasOwnPropertyEval v nodeKey with
        | .error e => .error e
        | .ok b =>
          .ok { immediateSet := if b then some (applyDeser d (v.getField nodeKey)) else none
              , deferredSet := none
              , onSetRegistered := true }
    | .async o =>
      .ok { immediateSet := none
          , deferredSet := some
              (match o with
               | .error e => .error e
               | .ok s =>
                 match hasOwnPropertyEval s nodeKey with
                 | .error e => .error e
                 | .ok b => .ok (if b then some (applyDeser d (s.getField nodeKey)) else none))
          , onSetRegistered := true }
  else .ok { immediateSet := none, deferredSet := none, onSetRegistered := true }

lemma stringMk_data (s : String) : String.mk s.data = s := rfl

lemma parseStrBody_escape (cs : List Char) :
    ∀ rest, parseStrBody (escapeChars cs ++ '\x22' :: rest) = some (cs, rest) := by
  induction cs with
  | nil =>
    intro rest
    rw [escapeChars, List.nil_append, parseStrBody.eq_def]
    simp
  | cons c cs ih =>
    intro rest
    by_cases h1 : c = '\x22' ∨ c = '\x5c'
    · have he : escapeChars (c :: cs) = '\x5c' :: c :: escapeChars cs := by
        rcases h1 with h | h <;> simp [escapeChars, h]
      rw [he, List.cons_append, List.cons_append, parseStrBody.eq_def]
      simp [ih]
    · push_neg at h1
      have he : escapeChars (c :: cs) = c :: escapeChars cs := by
        simp [escapeChars, h1.1, h1.2]
      rw [he, List.cons_append, parseStrBody.eq_def]
      simp [h1.1, h1.2, ih]

lemma takeWhile_all_append (p : Char → Bool) :
    ∀ l r, l.all p = true → (r = [] ∨ ∃ c r2, r = c :: r2 ∧ p c = false) →
      (l ++ r).takeWhile p = l ∧ (l ++ r).dropWhile p = r := by
  intro l
  induction l with
  | nil =>
    intro r _ hr
    rcases hr with rfl | ⟨c, r2, rfl, hc⟩
    · simp
    · simp [List.takeWhile, List.dropWhile, hc]
  | cons a l ih =>
    intro r hall hr
    simp only [List.all_cons, Bool.and_eq_true] at hall
    have h2 := ih r hall.2 hr
    simp [List.takeWhile, List.dropWhile, hall.1, h2.1, h2.2]

lemma printVal_of_safe (v : JsVal) (h : jsonSafe v = true) : ∃ pv, printVal v = some pv := by
  cases v with
  | null => exact ⟨_, rfl⟩
  | undefined => exact absurd h (by simp [jsonSafe])
  | bool b => cases b <;> exact ⟨_, rfl⟩
  | num lit => exact ⟨_, rfl⟩
  | str s => exact ⟨_, rfl⟩
  | obj fs => exact ⟨_, rfl⟩
  | defaultValue => exact absurd h (by simp [jsonSafe])

lemma printFieldPieces_ne_nil (k : String) (v : JsVal) (fs : List (String × JsVal))
    (h : jsonSafe v = true) : printFieldPieces ((k, v) :: fs) ≠ [] := by
  obtain ⟨pv, hpv⟩ := printVal_of_safe v h
  rw [printFieldPieces.eq_def]
  simp [hpv]

lemma jsize_pos (v : JsVal) : 1 ≤ jsize v := by
  cases v <;> simp [jsize]

lemma fsize_cons (k : String) (v : JsVal) (fs : List (String × JsVal)) :
    fsize ((k, v) :: fs) = 1 + jsize v + fsize fs := by
  rw [fsize]

lemma headNotNum_spec (r : List Char) (h : headNotNum r = true) :
    r = [] ∨ ∃ c r2, r = c :: r2 ∧ numberChar c = false := by
  cases r with
  | nil => exact Or.inl rfl
  | cons c r2 =>
    refine Or.inr ⟨c, r2, rfl, ?_⟩
    rw [headNotNum] at h
    simpa using h

lemma joinComma_pieces_head (k : String) (v : JsVal) (fs : List (String × JsVal))
    (h : jsonSafe v = true) :
    ∃ t, joinComma (printFieldPieces ((k, v) :: fs)) = '\x22' :: t := by
  obtain ⟨pv, hpv⟩ := printVal_of_safe v h
  rw [printFieldPieces.eq_def]
  simp only [hpv]
  cases hfp : printFieldPieces fs with
  | nil => exact ⟨escapeChars k.data ++ '\x22' :: ':' :: pv, by rw [joinComma, printQuoted]; simp⟩
  | cons y t2 =>
    exact ⟨escapeChars k.data ++ '\x22' :: ':' :: (pv ++ ',' :: joinComma (y :: t2)),
      by rw [joinComma, printQuoted]; simp⟩

lemma parse_print_main : ∀ fuel : Nat,
    (∀ v pv rest, jsonSafe v = true → printVal v = some pv → jsize v ≤ fuel →
       headNotNum rest = true → parseVal fuel (pv ++ rest) = some (v, rest)) ∧
    (∀ fs rest, fs ≠ [] → jsonSafeFields fs = true → fsize fs ≤ fuel →
       parseFields fuel (joinComma (printFieldPieces fs) ++ '\x7d' :: rest) = some (fs, rest)) := by
  intro fuel
  induction fuel with
  | zero =>
    constructor
    · intro v pv rest _ _ hsz _
      exact absurd hsz (by have := jsize_pos v; omega)
    · intro fs rest hne _ hsz
      cases fs with
      | nil => exact absurd rfl hne
      | cons p fs2 =>
        obtain ⟨k, v⟩ := p
        rw [fsize_cons] at hsz
        exact absurd hsz (by have := jsize_pos v; omega)
  | succ fuel ih =>
    constructor
    · intro v pv rest hsafe hpv hsz hrest
      cases v with
      | undefined => simp [jsonSafe] at hsafe
      | defaultValue => simp [jsonSafe] at hsafe
      | null =>
        rw [printVal.eq_def] at hpv
        rw [(Option.some.injEq _ _ ▸ hpv : _ = pv).symm] at *
        rw [parseVal.eq_def]
        simp [stripPre]
      | bool b =>
        cases b <;> rw [printVal.eq_def] at hpv <;>
          rw [(Option.some.injEq _ _ ▸ hpv : _ = pv).symm] <;>
          rw [parseVal.eq_def] <;> simp [stripPre]
      | num lit =>
        rw [printVal.eq_def] at hpv
        rw [(Option.some.injEq _ _ ▸ hpv : _ = pv).symm]
        rw [jsonSafe, numLitOk] at hsafe
        cases hd : lit.data with
        | nil => rw [hd] at hsafe; simp at hsafe
        | cons c cs =>
          rw [hd] at hsafe
          simp only [Bool.and_eq_true] at hsafe
          have hstart : (c.isDigit || c = '-') = true := hsafe.1
          have hall : (c :: cs).all numberChar = true := hsafe.2
          have hn : ¬ c = 'n' := fun e => absurd (e ▸ hstart) (by decide)
          have ht : ¬ c = 't' := fun e => absurd (e ▸ hstart) (by decide)
          have hf : ¬ c = 'f' := fun e => absurd (e ▸ hstart) (by decide)
          have hq : ¬ c = '\x22' := fun e => absurd (e ▸ hstart) (by decide)
          have hb : ¬ c = '\x7b' := fun e => absurd (e ▸ hstart) (by decide)
          have htw := takeWhile_all_append numberChar (c :: cs) rest hall (headNotNum_spec rest hrest)
          rw [List.cons_append, parseVal.eq_def]
          dsimp only
          rw [if_neg hn, if_neg ht, if_neg hf, if_neg hq, if_neg hb, if_pos hstart]
          rw [← List.cons_append, htw.1, htw.2, ← hd, stringMk_data]
      | str s =>
        rw [printVal.eq_def] at hpv
        rw [(Option.some.injEq _ _ ▸ hpv : _ = pv).symm]
        have harr : printQuoted s ++ rest = '\x22' :: (escapeChars s.data ++ '\x22' :: rest) := by
          simp [printQuoted]
        rw [harr, parseVal.eq_def]
        simp [parseStrBody_escape]
      | obj fs =>
        rw [printVal.eq_def] at hpv
        rw [(Option.some.injEq _ _ ▸ hpv : _ = pv).symm]
        rw [jsonSafe] at hsafe
        rw [jsize] at hsz
        cases fs with
        | nil =>
          rw [printFieldPieces.eq_def, joinComma]
          rw [parseVal.eq_def]
          simp
        | cons p fs2 =>
          obtain ⟨k, v⟩ := p
          have hvsafe : jsonSafe v = true := by
            rw [jsonSafeFields] at hsafe
            exact (Bool.and_eq_true _ _ ▸ hsafe).1
          obtain ⟨t, htj⟩ := joinComma_pieces_head k v fs2 hvsafe
          have harr : ('\x7b' :: joinComma (printFieldPieces ((k, v) :: fs2)) ++ ['\x7d']) ++ rest
              = '\x7b' :: (joinComma (printFieldPieces ((k, v) :: fs2)) ++ '\x7d' :: rest) := by
            simp
          rw [harr, parseVal.eq_def]
          have hfields := ih.2 ((k, v) :: fs2) rest (by simp) hsafe
            (by rw [fsize_cons] at hsz ⊢; omega)
          rw [htj] at hfields ⊢
          simp only [List.cons_append] at hfields ⊢
          simp [hfields]
    · intro fs rest hne hsafe hsz
      cases fs with
      | nil => exact absurd rfl hne
      | cons p fs2 =>
        obtain ⟨k, v⟩ := p
        rw [jsonSafeFields] at hsafe
        have hvsafe : jsonSafe v = true := (Bool.and_eq_true _ _ ▸ hsafe).1
        have hfs2safe : jsonSafeFields fs2 = true := (Bool.and_eq_true _ _ ▸ hsafe).2
        rw [fsize_cons] at hsz
        obtain ⟨pv, hpv⟩ := printVal_of_safe v hvsafe
        rw [printFieldPieces.eq_def]
        simp only [hpv]
        cases fs2 with
        | nil =>
          rw [printFieldPieces.eq_def, joinComma]
          have harr : (printQuoted k ++ ':' :: pv) ++ '\x7d' :: rest
              = '\x22' :: (escapeChars k.data ++ '\x22' :: (':' :: (pv ++ '\x7d' :: rest))) := by
            rw [printQuoted]; simp
          rw [harr, parseFields.eq_def]
          dsimp only
          rw [if_pos rfl, parseStrBody_escape]
          have hval := ih.1 v pv ('\x7d' :: rest) hvsafe hpv
            (by rw [fsize] at hsz; omega) rfl
          simp [hval, stringMk_data]
        | cons p2 fs3 =>
          obtain ⟨k2, v2⟩ := p2
          have hv2safe : jsonSafe v2 = true := by
            rw [jsonSafeFields] at hfs2safe
            exact (Bool.and_eq_true _ _ ▸ hfs2safe).1
          obtain ⟨pv2, hpv2⟩ := printVal_of_safe v2 hv2safe
          have hpieces : printFieldPieces ((k2, v2) :: fs3)
              = (printQuoted k2 ++ ':' :: pv2) :: printFieldPieces fs3 := by
            rw [printFieldPieces.eq_def]; simp [hpv2]
          rw [hpieces, joinComma, ← hpieces]
          have harr : ((printQuoted k ++ ':' :: pv) ++ ',' :: joinComma (printFieldPieces ((k2, v2) :: fs3))) ++ '\x7d' :: rest
              = '\x22' :: (escapeChars k.data ++ '\x22' :: (':' :: (pv ++ ',' :: (joinComma (printFieldPieces ((k2, v2) :: fs3)) ++ '\x7d' :: rest)))) := by
            rw [printQuoted]; simp
          rw [harr, parseFields.eq_def]
          dsimp only
          rw [if_pos rfl, parseStrBody_escape]
          have hval := ih.1 v pv (',' :: (joinComma (printFieldPieces ((k2, v2) :: fs3)) ++ '\x7d' :: rest)) hvsafe hpv
            (by omega) rfl
          have harr2 : pv ++ ',' :: (joinComma (printFieldPieces ((k2, v2) :: fs3)) ++ '\x7d' :: rest)
              = pv ++ (',' :: (joinComma (printFieldPieces ((k2, v2) :: fs3)) ++ '\x7d' :: rest)) := rfl
          have hrest2 := ih.2 ((k2, v2) :: fs3) rest (by simp) hfs2safe (by omega)
          simp [hval, hrest2, stringMk_data]

lemma printQuoted_len (s : String) : 2 ≤ (printQuoted s).length := by
  rw [printQuoted]
  simp

lemma print_jsize_main : ∀ n : Nat,
    (∀ v pv, jsonSafe v = true → jsize v ≤ n → printVal v = some pv → jsize v ≤ pv.length + 1) ∧
    (∀ fs, jsonSafeFields fs = true → fsize fs ≤ n →
       fsize fs ≤ (joinComma (printFieldPieces fs)).length + 1) := by
  intro n
  induction n with
  | zero =>
    constructor
    · intro v pv _ hsz _
      exact absurd hsz (by have := jsize_pos v; omega)
    · intro fs _ hsz
      cases fs with
      | nil => rw [fsize]; omega
      | cons p fs2 =>
        obtain ⟨k, v⟩ := p
        rw [fsize_cons] at hsz
        exact absurd hsz (by have := jsize_pos v; omega)
  | succ n ih =>
    constructor
    · intro v pv hsafe hsz hpv
      cases v with
      | obj fs =>
        rw [printVal.eq_def] at hpv
        rw [(Option.some.injEq _ _ ▸ hpv : _ = pv).symm]
        rw [jsonSafe] at hsafe
        rw [jsize] at hsz ⊢
        have hfs := ih.2 fs hsafe (by omega)
        simp
        omega
      | null => have h1 : jsize JsVal.null = 1 := rfl; omega
      | undefined => have h1 : jsize JsVal.undefined = 1 := rfl; omega
      | bool b => have h1 : jsize (JsVal.bool b) = 1 := rfl; omega
      | num lit => have h1 : jsize (JsVal.num lit) = 1 := rfl; omega
      | str s => have h1 : jsize (JsVal.str s) = 1 := rfl; omega
      | defaultValue => have h1 : jsize JsVal.defaultValue = 1 := rfl; omega
    · intro fs hsafe hsz
      cases fs with
      | nil => rw [fsize]; omega
      | cons p fs2 =>
        obtain ⟨k, v⟩ := p
        rw [jsonSafeFields] at hsafe
        have hvsafe : jsonSafe v = true := (Bool.and_eq_true _ _ ▸ hsafe).1
        have hfs2safe : jsonSafeFields fs2 = true := (Bool.and_eq_true _ _ ▸ hsafe).2
        rw [fsize_cons] at hsz ⊢
        obtain ⟨pv, hpv⟩ := printVal_of_safe v hvsafe
        have hv := ih.1 v pv hvsafe (by omega) hpv
        have hq := printQuoted_len k
        rw [printFieldPieces.eq_def]
        simp only [hpv]
        cases fs2 with
        | nil =>
          rw [printFieldPieces.eq_def, joinComma, fsize]
          simp only [List.length_append, List.length_cons]
          omega
        | cons p2 fs3 =>
          obtain ⟨k2, v2⟩ := p2
          have hv2safe : jsonSafe v2 = true := by
            rw [jsonSafeFields] at hfs2safe
            exact (Bool.and_eq_true _ _ ▸ hfs2safe).1
          obtain ⟨pv2, hpv2⟩ := printVal_of_safe v2 hv2safe
          have hfs2 := ih.2 ((k2, v2) :: fs3) (by rw [jsonSafeFields] at hfs2safe ⊢; exact hfs2safe) (by omega)
          have hpieces : printFieldPieces ((k2, v2) :: fs3)
              = (printQuoted k2 ++ ':' :: pv2) :: printFieldPieces fs3 := by
            rw [printFieldPieces.eq_def]; simp [hpv2]
          rw [hpieces, joinComma, ← hpieces]
          simp only [List.length_append, List.length_cons]
          omega

lemma stringify_parse (v : JsVal) (h : jsonSafe v = true) (s : String)
    (hs : JSONstringify v = some s) : JSONparse s = some v := by
  rw [JSONstringify] at hs
  cases hpv : printVal v with
  | none => rw [hpv] at hs; simp at hs
  | some pv =>
    rw [hpv] at hs
    have hs2 : String.mk pv = s := Option.some.inj hs
    have hsz := (print_jsize_main (jsize v)).1 v pv h le_rfl hpv
    have hmain := (parse_print_main (pv.length + 1)).1 v pv [] h hpv hsz rfl
    rw [JSONparse, ← hs2]
    have hlen : (String.mk pv).length = pv.length := rfl
    have hdata : (String.mk pv).data = pv := rfl
    rw [hlen, hdata]
    rw [List.append_nil] at hmain
    rw [hmain]

/-- Claim C2 (corrected), counterexample to the claim as stated: a stored
JSON string encoding a primitive is returned as that primitive by the
snapshot reader, not as a mapping. -/
theorem getState_primitive_cex :
    getState (GetItemResult.immediate ("5")) = GetStateResult.sync (JsVal.num ("5"))
    ∧ (JsVal.num ("5")).isMapping = false :=
  ⟨rfl, rfl⟩

/-- Claim C2 (amended): absence, `null`, an `undefined` resolution, a
non-string non-thenable result, and malformed content all yield the empty
mapping, but a well-formed JSON string is returned exactly as parsed — a
string encoding a primitive yields that primitive. -/
theorem getState_normalization :
    getState GetItemResult.nullOrUndefined = GetStateResult.sync (JsVal.obj [])
    ∧ getState GetItemResult.other = GetStateResult.sync (JsVal.obj [])
    ∧ getState (GetItemResult.pending (Except.ok none))
        = GetStateResult.async (Except.ok (JsVal.obj []))
    ∧ (∀ s, JSONparse s = none →
         getState (GetItemResult.immediate s) = GetStateResult.sync (JsVal.obj [])
         ∧ getState (GetItemResult.pending (Except.ok (some s)))
             = GetStateResult.async (Except.ok (JsVal.obj [])))
    ∧ (∀ s v, JSONparse s = some v →
         getState (GetItemResult.immediate s) = GetStateResult.sync v) := by
  refine ⟨rfl, rfl, rfl, ?_, ?_⟩
  · intro s h
    constructor <;> simp [getState, parseState, h]
  · intro s v h
    simp [getState, parseState, h]

/-- Witness for C2's amended theorem at the concrete contents `not-json`
(malformed) and `5` (a primitive). -/
theorem getState_normalization_wit :
    getState (GetItemResult.immediate ("not-json")) = GetStateResult.sync (JsVal.obj [])
    ∧ getState (GetItemResult.immediate ("5")) = GetStateResult.sync (JsVal.num ("5")) := by
  constructor
  · exact (getState_normalization.2.2.2.1 ("not-json") (by rfl)).1
  · exact getState_normalization.2.2.2.2 ("5") (JsVal.num ("5")) (by rfl)

/-- Claim C3: with no ambient `window` (and hence no platform storage) in
the execution context, construction yields the degraded instance, and
attaching it to any cell performs no storage access, registers no `onSet`
subscription, never calls `setSelf`, and (being a total function) never
throws. -/
theorem degraded_mode_noop (σ β : Type) (cfg : PersistConfiguration σ β) (s : σ)
    (trigger : String) (d : Option (JsVal → JsVal)) (ser : Option (JsVal → String))
    (nodeKey : String) (nv : JsVal) (st : GetStateResult) :
    construct ⟨false⟩ cfg s = (Constructed.degraded, s)
    ∧ attachEvents ((construct ⟨false⟩ cfg s).1) trigger = []
    ∧ attachInit ((construct ⟨false⟩ cfg s).1) d trigger nodeKey st = ⟨none, none⟩
    ∧ registersOnSet ((construct ⟨false⟩ cfg s).1) = false
    ∧ onSetEvents ((construct ⟨false⟩ cfg s).1) ser nodeKey nv st = [] :=
  ⟨rfl, rfl, rfl, rfl, rfl⟩

/-- Claim C4 (corrected), counterexample to the claim as stated: with no
ambient `window`, a configuration that explicitly supplies a storage
backend still constructs the degraded no-op, which performs no reads or
writes against the supplied backend. -/
theorem degraded_ignores_supplied_storage_cex :
    (construct ⟨false⟩
        ({ key := KeyConfig.fixed ("persist-key"), storage := some ("injectedBackend") }
          : PersistConfiguration Unit String) ()).1 = Constructed.degraded
    ∧ attachEvents ((construct ⟨false⟩
        ({ key := KeyConfig.fixed ("persist-key"), storage := some ("injectedBackend") }
          : PersistConfiguration Unit String) ()).1) ("get") = [] :=
  ⟨rfl, rfl⟩

/-- Claim C4 (amended): the degraded no-op is entered exactly when the
ambient `window` is absent, regardless of whether a storage backend is
supplied; when `window` is present, a supplied backend is the one every
read and write of the effect targets. -/
theorem degraded_iff_window_absent (σ β : Type) (cfg : PersistConfiguration σ β) (s : σ)
    (b : β) (hb : cfg.storage = some b) :
    (construct ⟨false⟩ cfg s).1 = Constructed.degraded
    ∧ (construct ⟨true⟩ cfg s).1
        = Constructed.active (BackendChoice.supplied b) (getKey cfg.key s).1
    ∧ attachEvents ((construct ⟨true⟩ cfg s).1) ("get")
        = [StorageEvent.getItemCall (BackendChoice.supplied b) (getKey cfg.key s).1]
    ∧ (∀ ser nodeKey nv st ev,
         ev ∈ onSetEvents ((construct ⟨true⟩ cfg s).1) ser nodeKey nv st →
           eventBackend ev = BackendChoice.supplied b) := by
  have hc : (construct ⟨true⟩ cfg s).1
      = Constructed.active (BackendChoice.supplied b) (getKey cfg.key s).1 := by
    simp [construct, hb, chooseBackend]
  refine ⟨rfl, hc, ?_, ?_⟩
  · rw [hc]
    rfl
  · intro ser nodeKey nv st ev hev
    rw [hc] at hev
    simp only [onSetEvents] at hev
    rcases List.mem_cons.mp hev with rfl | h2
    · rfl
    · cases hout : persistAtomOnSet ser nodeKey nv st with
      | ok p =>
        rw [hout] at h2
        rcases List.mem_singleton.mp h2 with rfl
        rfl
      | error e =>
        rw [hout] at h2
        simp at h2

/-- Witness for C4's amended theorem at a concrete configuration with an
injected backend. -/
theorem degraded_iff_window_absent_wit :
    (construct ⟨false⟩ ({ key := KeyConfig.fixed ("k"), storage := some ("inj") }
        : PersistConfiguration Unit String) ()).1 = Constructed.degraded
    ∧ (construct ⟨true⟩ ({ key := KeyConfig.fixed ("k"), storage := some ("inj") }
        : PersistConfiguration Unit String) ()).1
      = Constructed.active (BackendChoice.supplied ("inj")) (some ("k")) := by
  have h := degraded_iff_window_absent Unit String
    ({ key := KeyConfig.fixed ("k"), storage := some ("inj") }) () ("inj") rfl
  exact ⟨h.1, h.2.1⟩

/-- Claim C5 (corrected), counterexample to the claim as stated: with a
backend whose pending `getItem` rejects, the initialization continuation
ends in an unhandled rejection, the `onSet` handler itself rejects, and a
rejecting `setItem` promise escapes the writer's `try/catch`. -/
theorem storage_rejection_unhandled_cex :
    (persistAtomInit none ("get") ("a")
        (getState (GetItemResult.pending (Except.error ("boom"))))).deferredSet
      = some (Except.error ("boom"))
    ∧ persistAtomOnSet none ("a") (JsVal.num ("1"))
        (getState (GetItemResult.pending (Except.error ("boom"))))
      = Except.error ("boom")
    ∧ setStateOutcome (SetItemBehavior.pendingRejected ("boom"))
      = WriteOutcome.unhandledRejection ("boom") :=
  ⟨rfl, rfl, rfl⟩

/-- Claim C5 (amended): the effect installs no rejection handling — a
rejection of a pending `getItem` passes through `getState`, through the
initialization continuation, and through the `onSet` handler unhandled,
and a rejected promise returned by `setItem` escapes the writer's
`try/catch`, which only catches synchronous throws. -/
theorem storage_rejection_propagates (e : String) (d : Option (JsVal → JsVal))
    (ser : Option (JsVal → String)) (nodeKey : String) (nv : JsVal) :
    getState (GetItemResult.pending (Except.error e)) = GetStateResult.async (Except.error e)
    ∧ (persistAtomInit d ("get") nodeKey (GetStateResult.async (Except.error e))).deferredSet
        = some (Except.error e)
    ∧ persistAtomOnSet ser nodeKey nv (GetStateResult.async (Except.error e)) = Except.error e
    ∧ setStateOutcome (SetItemBehavior.pendingRejected e) = WriteOutcome.unhandledRejection e :=
  ⟨rfl, rfl, rfl, rfl⟩

/-- Claim C6: a stored string that is not parseable yields the empty
mapping from the snapshot reader (no throw — the parse error is caught
inside `parseState`), and a subsequent set on any cell writes the
serialization of the updated mapping, a valid structured blob that parses
back to that mapping, overwriting the malformed content. -/
theorem malformed_recovery_and_overwrite (s : String) (h : JSONparse s = none)
    (k : String) (v : JsVal) (ser : Option (JsVal → String))
    (hv : jsonSafe (applySer ser v) = true) :
    getState (GetItemResult.immediate s) = GetStateResult.sync (JsVal.obj [])
    ∧ persistAtomOnSet ser k v (getState (GetItemResult.immediate s))
        = Except.ok (JsVal.obj [(k, applySer ser v)],
            JSONstringify (JsVal.obj [(k, applySer ser v)]))
    ∧ Option.bind (JSONstringify (JsVal.obj [(k, applySer ser v)])) JSONparse
        = some (JsVal.obj [(k, applySer ser v)]) := by
  have hgs : getState (GetItemResult.immediate s) = GetStateResult.sync (JsVal.obj []) := by
    simp [getState, parseState, h]
  refine ⟨hgs, ?_, ?_⟩
  · rw [hgs]
    simp [persistAtomOnSet, awaitState, Except.map, updateState, JsVal.hasOwnProperty,
      JsVal.setProp, setField]
  · have hsafe : jsonSafe (JsVal.obj [(k, applySer ser v)]) = true := by
      simp [jsonSafe, jsonSafeFields, hv]
    obtain ⟨pv, hpv⟩ := printVal_of_safe _ hsafe
    have hst : JSONstringify (JsVal.obj [(k, applySer ser v)]) = some (String.mk pv) := by
      rw [JSONstringify, hpv]
      rfl
    rw [hst]
    simpa using stringify_parse _ hsafe _ hst

/-- Witness for C6 at the concrete malformed content `not-json` and a
subsequent set of the number `5` under the key `count`. -/
theorem malformed_recovery_and_overwrite_wit :
    getState (GetItemResult.immediate ("not-json")) = GetStateResult.sync (JsVal.obj [])
    ∧ persistAtomOnSet none ("count") (JsVal.num ("5"))
        (getState (GetItemResult.immediate ("not-json")))
      = Except.ok (JsVal.obj [(("count" : String), JsVal.num ("5"))],
          some ("\x7b\x22count\x22:5\x7d")) := by
  have h := malformed_recovery_and_overwrite ("not-json") (by rfl) ("count")
    (JsVal.num ("5")) none (by rfl)
  exact ⟨h.1, h.2.1⟩

/-- Claim C7 (corrected), counterexample to the claim as stated: at the
stored content `null` — a well-formed JSON string, so identical for both
backends — the immediate backend makes the attach throw a TypeError at
`typeof state.then` before `onSet` is registered, while the pending
backend completes the attach with the subscription registered and only
its continuation rejects; the two modes do not lead the effect to the
same outcome. -/
theorem sync_async_divergence_cex :
    JSONparse ("null") = some JsVal.null
    ∧ persistAtomAttach none ("get") ("count")
        (getState (GetItemResult.immediate ("null")))
      = Except.error ("TypeError")
    ∧ persistAtomAttach none ("get") ("count")
        (getState (GetItemResult.pending (Except.ok (some ("null")))))
      = Except.ok { immediateSet := none
                  , deferredSet := some (Except.error ("TypeError"))
                  , onSetRegistered := true } :=
  ⟨rfl, rfl, rfl⟩

/-- Claim C7 (amended): for identical stored content whose parsed state
does not make the initialization member accesses throw (the state is not
`null` and carries no own `hasOwnProperty` member), the immediate and
the pending backend agree: both reads await to the same mapping, both
attaches complete without throwing, register the subscription, and
eventually deliver the same `setSelf` values.  At content parsing to
`null` the two modes diverge as the counterexample shows. -/
theorem sync_async_equivalence_amended (content : String) (d : Option (JsVal → JsVal))
    (nodeKey : String) (h : attachChecksThrow (parseState (some content)) = false) :
    awaitState (getState (GetItemResult.immediate content))
      = awaitState (getState (GetItemResult.pending (Except.ok (some content))))
    ∧ (persistAtomAttach d ("get") nodeKey
        (getState (GetItemResult.immediate content))).isOk = true
    ∧ (persistAtomAttach d ("get") nodeKey
        (getState (GetItemResult.pending (Except.ok (some content))))).isOk = true
    ∧ Except.map AttachResult.deliveredSets
        (persistAtomAttach d ("get") nodeKey (getState (GetItemResult.immediate content)))
      = Except.map AttachResult.deliveredSets
          (persistAtomAttach d ("get") nodeKey
            (getState (GetItemResult.pending (Except.ok (some content)))))
    ∧ Except.map AttachResult.onSetRegistered
        (persistAtomAttach d ("get") nodeKey (getState (GetItemResult.immediate content)))
      = Except.map AttachResult.onSetRegistered
          (persistAtomAttach d ("get") nodeKey
            (getState (GetItemResult.pending (Except.ok (some content))))) := by
  have hsync : getState (GetItemResult.immediate content)
      = GetStateResult.sync (parseState (some content)) := rfl
  have hasync : getState (GetItemResult.pending (Except.ok (some content)))
      = GetStateResult.async (Except.ok (parseState (some content))) := rfl
  refine ⟨rfl, ?_⟩
  rw [hsync, hasync]
  generalize parseState (some content) = v at h
  cases v with
  | null => simp [attachChecksThrow] at h
  | undefined => simp [attachChecksThrow] at h
  | bool b =>
    exact ⟨rfl, rfl, rfl, rfl⟩
  | num lit =>
    exact ⟨rfl, rfl, rfl, rfl⟩
  | str s =>
    exact ⟨rfl, rfl, rfl, rfl⟩
  | defaultValue =>
    exact ⟨rfl, rfl, rfl, rfl⟩
  | obj fs =>
    simp only [attachChecksThrow] at h
    cases hb : fs.any (fun p => p.1 == nodeKey) <;>
      simp [persistAtomAttach, thenIsFunctionEval, hasOwnPropertyEval, h, hb,
        AttachResult.deliveredSets, Except.map, Except.isOk, Except.toBool]

/-- Witness for C7's amended theorem at the concrete content
`\x7b"count":5\x7d`, where both backends deliver the same `setSelf`
value. -/
theorem sync_async_equivalence_amended_wit :
    (persistAtomAttach none ("get") ("count")
        (getState (GetItemResult.immediate ("\x7b\x22count\x22:5\x7d")))).isOk = true
    ∧ Except.map AttachResult.deliveredSets
        (persistAtomAttach none ("get") ("count")
          (getState (GetItemResult.immediate ("\x7b\x22count\x22:5\x7d"))))
      = Except.map AttachResult.deliveredSets
          (persistAtomAttach none ("get") ("count")
            (getState (GetItemResult.pending
              (Except.ok (some ("\x7b\x22count\x22:5\x7d")))))) := by
  have h := sync_async_equivalence_amended ("\x7b\x22count\x22:5\x7d") none ("count") rfl
  exact ⟨h.2.1, h.2.2.2.1⟩

/-- Claim C8: a function-valued key is invoked exactly once per
construction of an instance — the construction's final key-state is one
transition of the key function — not per cell attachment or per storage
access, and every storage access of the constructed instance carries that
single resolved key string. -/
theorem key_function_once_per_construction (σ β : Type) (f : σ → String × σ) (s : σ)
    (stor : Option β) (trigger : String) (ser : Option (JsVal → String))
    (nodeKey : String) (nv : JsVal) (st : GetStateResult) :
    construct ⟨true⟩ ({ key := KeyConfig.fnKey f, storage := stor }
        : PersistConfiguration σ β) s
      = (Constructed.active (chooseBackend stor) (some (f s).1), (f s).2)
    ∧ (attachEvents (Constructed.active (chooseBackend stor) (some (f s).1)) trigger).all
        (fun ev => eventKey ev == some (f s).1) = true
    ∧ (onSetEvents (Constructed.active (chooseBackend stor) (some (f s).1))
          ser nodeKey nv st).all (fun ev => eventKey ev == some (f s).1) = true := by
  refine ⟨rfl, ?_, ?_⟩
  · by_cases ht : trigger = "get" <;> simp [attachEvents, ht, eventKey]
  · cases hout : persistAtomOnSet ser nodeKey nv st <;>
      simp [onSetEvents, hout, eventKey]

/-- Claim C10: with the `key` field omitted, `getKey` resolves to the
`undefined` value (no `recoil-persist` default is substituted), and every
`getItem` and `setItem` call of the constructed instance passes that
`undefined` value as the key argument. -/
theorem omitted_key_is_undefined (σ β : Type) (stor : Option β) (s : σ) (trigger : String)
    (ser : Option (JsVal → String)) (nodeKey : String) (nv : JsVal)
    (st : GetStateResult) :
    getKey (KeyConfig.missing : KeyConfig σ) s = (none, s)
    ∧ construct ⟨true⟩ ({ key := KeyConfig.missing, storage := stor }
          : PersistConfiguration σ β) s
        = (Constructed.active (chooseBackend stor) none, s)
    ∧ (attachEvents (Constructed.active (chooseBackend stor) (none : Option String))
          trigger).all (fun ev => eventKey ev == (none : Option String)) = true
    ∧ (onSetEvents (Constructed.active (chooseBackend stor) (none : Option String))
          ser nodeKey nv st).all (fun ev => eventKey ev == (none : Option String)) = true := by
  refine ⟨rfl, rfl, ?_, ?_⟩
  · by_cases ht : trigger = "get" <;> simp [attachEvents, ht, eventKey]
  · cases hout : persistAtomOnSet ser nodeKey nv st <;>
      simp [onSetEvents, hout, eventKey]
